import Mathlib

/-!
# Verification of the blocks-sync collaboration core

A shallow embedding of the reconciliation core of the repository:

* `src/lib/Editor.svelte` — the External Editor Bridge and the Content
  Reconciler's Shared → Local debounce (`handleMessage`, `loadCode`,
  `debounce`, the room-state `$effect`).
* `src/routes/[room]/+page.svelte` (the larger variant, with editor
  content)— the Session Lifecycle, Presence Synchronizer and the
  Local → Shared write path (`handleEditorContentChange`,
  `handleMouseMove`, `handleMouseLeave`, the `blockContent` observer,
  the provider `status` handler, `cleanup`).

Modelling conventions:

* JavaScript values flowing through the reconciler are modelled by `JVal`.
  The source only ever inspects a content payload through JS truthiness
  and `JSON.stringify` equality, so a structured payload (object/array)
  is represented by its canonical serialization string
  (`JVal.structured repr`); such values are always truthy in JS and two
  of them are `JSON.stringify`-equal iff their serializations coincide.
* `Date.now()` is passed in explicitly as a `now : Int` parameter.
* The single logical thread of the browser is modelled by pure state
  transformers on `Sys`; the deferred-apply timer is modelled by an
  explicit set of live timer ids (`TimerSys`) with separate fire events.
* Y.js map observers fire synchronously at the end of every `set`
  transaction (own writes included); Svelte `$effect` re-runs are
  deferred and coalesced, so a handler that reassigns `editorContent`
  several times is followed by exactly one effect run.
* Uncaught JavaScript exceptions are modelled by `Except JsError`;
  the code paths that throw do so before mutating any state, so an
  erroring handler leaves the state unchanged.
-/

/-- A JSON-serializable JavaScript value as observed by the reconciler.
Objects and arrays are represented by their canonical `JSON.stringify`
serialization, which is the only view of them the source code takes. -/
inductive JVal where
  | null
  | bool (b : Bool)
  | num (n : Int)
  | str (s : String)
  | structured (serialization : String)
deriving DecidableEq, Repr

/-- JavaScript truthiness of a `JVal`: `null`, `false`, `0` and the
empty string are falsy; objects and arrays are always truthy. -/
def JVal.truthy : JVal → Bool
  | .null => false
  | .bool b => b
  | .num n => n != 0
  | .str s => s != ""
  | .structured _ => true

/-- The raw `data` field of a `blocks.updateProject` message: a string to
be fed to `JSON.parse`.  `empty` is a falsy `data` field (missing,
`null` or the empty string — none of these reach the parser);
`wellFormed v` is a nonempty string that parses to `v`; `malformed` is a
nonempty string on which `JSON.parse` throws. -/
inductive Payload where
  | empty
  | wellFormed (v : JVal)
  | malformed
deriving DecidableEq, Repr

/-- JS truthiness of the raw `data` field. -/
def Payload.truthy : Payload → Bool
  | .empty => false
  | _ => true

/-- Result of `JSON.parse` on the raw `data` field: `none` means the parser throws. -/
def Payload.parse : Payload → Option JVal
  | .wellFormed v => some v
  | _ => none

/-- The object the Editor component hands to `onContentChange`
(`{data, origin, timestamp}`), and equally the record the room page
synthesizes into `editorContent` from the shared store. -/
structure ContentMsg where
  data : JVal
  origin : String
  timestamp : Int
deriving DecidableEq, Repr

/-- The `event` metadata of a `blocks.updateProject` message
(`{element, recordUndo}`). -/
structure ChangeEvent where
  element : String
  recordUndo : Bool
deriving DecidableEq, Repr

/-- Inbound window messages handled by `handleMessage` in
`Editor.svelte`.  The `event` field of `updateProject` may be absent
(`none`), in which case the source dereferences `undefined`. -/
inductive Msg where
  | ready
  | updateProject (data : Payload) (event : Option ChangeEvent)
  | other (ty : String)
deriving DecidableEq, Repr

/-- A `PresenceEntry` `{x, y, color}` in the `mouse-positions` map. -/
structure PresenceEntry where
  x : Int
  y : Int
  color : String
deriving DecidableEq, Repr

/-- The shared `mouse-positions` Y.Map, as an association list. -/
abbrev PresenceMap := List (String × PresenceEntry)

/-- Operation `Y.Map.get`. -/
def pmGet (m : PresenceMap) (k : String) : Option PresenceEntry :=
  match m.find? (fun kv => kv.1 == k) with
  | some kv => some kv.2
  | none => none

/-- Operation `Y.Map.set` — unconditional overwrite. -/
def pmSet (m : PresenceMap) (k : String) (v : PresenceEntry) : PresenceMap :=
  (k, v) :: m.filter (fun kv => kv.1 != k)

/-- Operation `Y.Map.delete`. -/
def pmDelete (m : PresenceMap) (k : String) : PresenceMap :=
  m.filter (fun kv => kv.1 != k)

/-- The shared `block-content` Y.Map: its three keys `content`,
`timestamp` and `origin`, each possibly absent. -/
structure BlockContent where
  content : Option JVal
  timestamp : Option Int
  origin : Option String
deriving DecidableEq, Repr

/-- The room page's `syncStatus` state. -/
inductive SyncStatus where
  | idle
  | sending
  | receiving
deriving DecidableEq, Repr

/-- The deferred-apply timer machinery of `Editor.svelte`:
`slot` is the `debounceTimer` variable, `pending` the set of timer ids
currently scheduled with `setTimeout` and not yet fired or cleared,
`nextId` a fresh-id counter. -/
structure TimerSys where
  slot : Option Nat
  pending : List Nat
  nextId : Nat
deriving DecidableEq, Repr

/-- The `debounce` function of `Editor.svelte`: clear any timer recorded
in `debounceTimer`, then schedule a fresh one and record it. -/
def debounceOp (t : TimerSys) : TimerSys :=
  let cleared :=
    match t.slot with
    | some oldId => t.pending.erase oldId
    | none => t.pending
  { slot := some t.nextId, pending := cleared ++ [t.nextId], nextId := t.nextId + 1 }

/-- The Editor component's local state. -/
structure EditorState where
  editorReady : Bool
  codeLoaded : Bool
  localUserId : String
  lastRoomState : JVal
  iframeAvailable : Bool
  pushes : List JVal
deriving DecidableEq, Repr

/-- The whole single-page session: room page state, Editor component
state, the shared Y.js maps and the timer system. -/
structure Sys where
  connected : Bool
  provider : Bool
  userId : String
  userColor : String
  blockContent : Option BlockContent
  mousePositions : Option PresenceMap
  editorContent : Option ContentMsg
  lastEditorUpdate : Int
  syncStatus : SyncStatus
  editor : EditorState
  timer : TimerSys
deriving DecidableEq, Repr

/-- One `blockContent.set(key, value)` call issued against the shared
mapping. -/
inductive WriteAct where
  | setContent (v : JVal)
  | setTimestamp (t : Int)
  | setOrigin (o : String)
deriving DecidableEq, Repr

/-- An uncaught JavaScript exception escaping a handler. -/
inductive JsError where
  | undefinedAccess
  | parseFailure
deriving DecidableEq, Repr

/-- Function `loadCode` in `Editor.svelte`: post a `blocks.updateProject` load
command into the iframe.  A no-op unless the editor has signalled ready
and the iframe's `contentWindow` is available.  The
`JSON.parse(JSON.stringify(code))` round trip inside the `try` block is
the identity on every JSON-serializable value, so for the values
modelled here the `catch` branch is unreachable. -/
def loadCodeSys (code : JVal) (s : Sys) : Sys :=
  if s.editor.editorReady && s.editor.iframeAvailable then
    { s with editor := { s.editor with
        pushes := s.editor.pushes ++ [code], codeLoaded := true } }
  else s

/-- The body of the `blockContent.observe` callback in the room page:
re-read the three content keys, and if `content` is truthy, mark
`receiving` and synthesize a fresh `editorContent` record
(`timestamp || 0`, `origin || ''`).  Returns the updated state and
whether `editorContent` was reassigned (which is what makes the Editor
`$effect` re-run). -/
def observeOnce (s : Sys) : Sys × Bool :=
  match s.blockContent with
  | none => (s, false)
  | some bc =>
    match bc.content with
    | none => (s, false)
    | some v =>
      if v.truthy then
        ({ s with
            syncStatus := SyncStatus.receiving,
            editorContent := some ⟨v, bc.origin.getD "", bc.timestamp.getD 0⟩,
            lastEditorUpdate := bc.timestamp.getD 0 }, true)
      else (s, false)

/-- One run of the room-state `$effect` in `Editor.svelte`: return
immediately when `initCode` is null or its `origin` equals the local
user id; otherwise reschedule the deferred apply through `debounce`. -/
def effectRun (s : Sys) : Sys :=
  match s.editorContent with
  | none => s
  | some c =>
    if c.origin = s.editor.localUserId then s
    else { s with timer := debounceOp s.timer }

/-- A remote Y.js update delivering new values for all three content
keys in one transaction: the map changes, the observer fires once, and
(iff `editorContent` was reassigned) the deferred Editor `$effect`
re-runs once. -/
def yjsContentUpdate (c : ContentMsg) (s : Sys) : Sys :=
  match s.blockContent with
  | none => s
  | some _ =>
    let ob := observeOnce
      { s with blockContent := some ⟨some c.data, some c.timestamp, some c.origin⟩ }
    if ob.2 then effectRun ob.1 else ob.1

/-- The callback scheduled by the room-state `$effect`: read the current
`initCode` (the prop is read at fire time, not captured at schedule
time), compare its payload by `JSON.stringify` against `lastRoomState`,
and if it differs, `loadCode` it and update `lastRoomState`.  A pending
timer only ever exists after `editorContent` was set, and
`editorContent` is never cleared, so the `none` branch is unreachable
from reachable states (in JS it would dereference `null`). -/
def roomStateCallback (s : Sys) : Sys :=
  match s.editorContent with
  | none => s
  | some c =>
    if c.data = s.editor.lastRoomState then s
    else
      let s1 := loadCodeSys c.data s
      { s1 with editor := { s1.editor with lastRoomState := c.data } }

/-- Timer `id` fires: if it is still live, it leaves the pending set,
its body runs (`fn(); debounceTimer = undefined`). -/
def fireTimer (id : Nat) (s : Sys) : Sys :=
  if id ∈ s.timer.pending then
    let s1 := { s with timer := { s.timer with pending := s.timer.pending.erase id } }
    let s2 := roomStateCallback s1
    { s2 with timer := { s2.timer with slot := none } }
  else s

/-- Fire the currently slotted timer, if any. -/
def fireSlot (s : Sys) : Sys :=
  match s.timer.slot with
  | none => s
  | some id => fireTimer id s

/-- Function `handleEditorContentChange` in the room page, wired as the Editor's
`onContentChange`: guard on connection, handle and payload, then write
`content`, `timestamp` (`content.timestamp || Date.now()`) and `origin`
(`content.origin || ''`) to the shared mapping in this same invocation.
Each `set` is its own Y.js transaction, so the `blockContent` observer
fires synchronously after each of the three writes; the Editor
`$effect` triggered by the `editorContent` reassignments runs once,
deferred, after the handler.  Returns the resulting state and the list
of shared-mapping writes issued. -/
def handleEditorContentChange (now : Int) (content : Option ContentMsg) (s : Sys) :
    Sys × List WriteAct :=
  match s.blockContent with
  | none => (s, [])
  | some bc0 =>
    if !s.connected then (s, [])
    else
      match content with
      | none => (s, [])
      | some c =>
        if !c.data.truthy then (s, [])
        else
          let timestamp := if c.timestamp = 0 then now else c.timestamp
          let origin := if c.origin = "" then "" else c.origin
          let s1 := { s with syncStatus := SyncStatus.sending }
          let s2 := (observeOnce { s1 with
            blockContent := some { bc0 with content := some c.data } }).1
          let s3 := (observeOnce { s2 with
            blockContent := some ⟨some c.data, some timestamp, bc0.origin⟩ }).1
          let s4 := (observeOnce { s3 with
            blockContent := some ⟨some c.data, some timestamp, some origin⟩ }).1
          let s5 := { s4 with lastEditorUpdate := timestamp }
          (effectRun s5,
           [WriteAct.setContent c.data, WriteAct.setTimestamp timestamp,
            WriteAct.setOrigin origin])

/-- Function `handleMessage` in `Editor.svelte`.  On `blocks.ready`: mark ready
and, since the wired `initCode` prop is never `undefined` (it is `null`
before the first room record), load it unless code was already loaded.
On `blocks.updateProject`: guard on readiness and a truthy `data`
field, dereference `data.event` (throwing if absent), drop selection
and undo-suppressed events, then `JSON.parse` the payload (throwing on
malformed input — there is no surrounding `try`) and forward
`{data, origin: localUserId, timestamp: Date.now()}` to
`onContentChange`.  Returns the new state together with the
shared-mapping writes performed via `handleEditorContentChange`. -/
def handleMessage (now : Int) (msg : Msg) (s : Sys) :
    Except JsError (Sys × List WriteAct) :=
  match msg with
  | Msg.ready =>
    let s1 := { s with editor := { s.editor with editorReady := true } }
    if !s1.editor.codeLoaded then
      let initVal : JVal :=
        match s1.editorContent with
        | none => JVal.null
        | some c => JVal.structured ("\x7b\x22data\x22:" ++ reprStr c ++ "\x7d")
      Except.ok (loadCodeSys initVal s1, [])
    else Except.ok (s1, [])
  | Msg.updateProject payload event =>
    if s.editor.editorReady && payload.truthy then
      match event with
      | none => Except.error JsError.undefinedAccess
      | some e =>
        if e.element == "selected" || !e.recordUndo then Except.ok (s, [])
        else
          match payload.parse with
          | none => Except.error JsError.parseFailure
          | some v =>
            Except.ok (handleEditorContentChange now
              (some ⟨v, s.editor.localUserId, now⟩) s)
    else Except.ok (s, [])
  | Msg.other _ => Except.ok (s, [])

/-- The provider `status` handler in the room page: recompute
`connected`, and on a non-connected → connected transition read the
shared record directly; if it already holds truthy content, synthesize
`editorContent` from it (`timestamp || Date.now()`, `origin || ''`)
without waiting for a change notification.  The `editorContent`
reassignment makes the Editor `$effect` re-run once. -/
def statusHandler (now : Int) (st : String) (s : Sys) : Sys :=
  let wasConnected := s.connected
  let conn := st == "connected"
  let s1 := { s with connected := conn }
  if conn && !wasConnected then
    match s1.blockContent with
    | none => s1
    | some bc =>
      match bc.content with
      | none => s1
      | some v =>
        if v.truthy then
          effectRun { s1 with editorContent := some ⟨v, bc.origin.getD "",
            match bc.timestamp with
            | some t => if t = 0 then now else t
            | none => now⟩ }
        else s1
  else s1

/-- Function `handleMouseMove`: publish the locally reported position under the
local user id, with the session color; a no-op when the map handle is
unavailable or not connected. -/
def handleMouseMove (x y : Int) (s : Sys) : Sys :=
  match s.mousePositions with
  | none => s
  | some m =>
    if s.connected then
      { s with mousePositions := some (pmSet m s.userId ⟨x, y, s.userColor⟩) }
    else s

/-- Function `handleMouseLeave`: delete the local presence entry if connected. -/
def handleMouseLeave (s : Sys) : Sys :=
  match s.mousePositions with
  | none => s
  | some m =>
    if s.connected then
      { s with mousePositions := some (pmDelete m s.userId) }
    else s

/-- The local presence entry as stored in the shared mapping. -/
def sysPmGet (s : Sys) (k : String) : Option PresenceEntry :=
  match s.mousePositions with
  | none => none
  | some m => pmGet m k

/-- A side effect performed during session teardown. -/
inductive CleanupAct where
  | removePresence
  | disconnect
deriving DecidableEq, Repr

/-- Function `cleanup` in the room page (ran from `onDestroy`): delete the local
presence entry if the map handle exists and we are connected, then
release the provider connection if it exists.  Returns the resulting
state and the ordered trace of teardown side effects. -/
def cleanup (s : Sys) : Sys × List CleanupAct :=
  let step1 :=
    match s.mousePositions with
    | some m =>
      if s.connected then
        ({ s with mousePositions := some (pmDelete m s.userId) },
         [CleanupAct.removePresence])
      else (s, [])
    | none => (s, [])
  if step1.1.provider then
    ({ step1.1 with provider := false }, step1.2 ++ [CleanupAct.disconnect])
  else step1

/-- The state of a freshly initialized session (`initRoom` plus the
Editor component's initial state): not yet connected, empty shared
maps, `editorContent` null, `lastRoomState` null, no pending timer. -/
def initSys (roomUserId roomUserColor editorUserId : String) : Sys :=
  { connected := false
    provider := true
    userId := roomUserId
    userColor := roomUserColor
    blockContent := some ⟨none, none, none⟩
    mousePositions := some []
    editorContent := none
    lastEditorUpdate := 0
    syncStatus := SyncStatus.idle
    editor := { editorReady := false, codeLoaded := false,
                localUserId := editorUserId, lastRoomState := JVal.null,
                iframeAvailable := true, pushes := [] }
    timer := { slot := none, pending := [], nextId := 0 } }

/-- The events a session reacts to, each running to completion on the
single logical thread. -/
inductive SysEv where
  | yjsUpdate (c : ContentMsg)
  | editorMsg (now : Int) (m : Msg)
  | statusEv (now : Int) (st : String)
  | fire (id : Nat)
  | mouseMove (x y : Int)
  | mouseLeave
deriving DecidableEq, Repr

/-- One event step.  A handler that throws does so before mutating any
state, so the erroring case leaves the state unchanged. -/
def sysStep (s : Sys) (e : SysEv) : Sys :=
  match e with
  | SysEv.yjsUpdate c => yjsContentUpdate c s
  | SysEv.editorMsg now m =>
    match handleMessage now m s with
    | Except.ok r => r.1
    | Except.error _ => s
  | SysEv.statusEv now st => statusHandler now st s
  | SysEv.fire id => fireTimer id s
  | SysEv.mouseMove x y => handleMouseMove x y s
  | SysEv.mouseLeave => handleMouseLeave s

/-- The scheduling part of a burst of remote content updates, all
arriving inside the debounce window (no timer fires in between). -/
def burstFold (cs : List ContentMsg) (s : Sys) : Sys :=
  cs.foldl (fun t c => yjsContentUpdate c t) s

/-- A burst of remote content updates all arriving inside the debounce
window, followed by the single fire of the last-scheduled timer at the
window's close. -/
def runBurst (cs : List ContentMsg) (s : Sys) : Sys :=
  fireSlot (burstFold cs s)

/-- A sequence of local pointer moves. -/
def applyMoves (moves : List (Int × Int)) (s : Sys) : Sys :=
  moves.foldl (fun t p => handleMouseMove p.1 p.2 t) s

/-- The timer well-formedness invariant of a session: the set of live
`setTimeout` tasks is exactly what the `debounceTimer` slot records —
in particular at most one deferred apply is ever pending. -/
def timerWf (t : TimerSys) : Prop := t.pending = t.slot.toList

/-- A connected, ready demonstration session used to instantiate the
universally quantified theorems below. -/
def demoSys : Sys :=
  { connected := true
    provider := true
    userId := "4242"
    userColor := "#ff0000"
    blockContent := some ⟨none, none, none⟩
    mousePositions := some []
    editorContent := none
    lastEditorUpdate := 0
    syncStatus := SyncStatus.idle
    editor := { editorReady := true, codeLoaded := false,
                localUserId := "u1", lastRoomState := JVal.null,
                iframeAvailable := true, pushes := [] }
    timer := { slot := none, pending := [], nextId := 0 } }

/-- A non-connected session whose shared record already holds content. -/
def c8State : Sys :=
  { demoSys with
      connected := false,
      blockContent := some ⟨some (JVal.str "X"), some 5, some "remote"⟩ }

/-! ## Helper lemmas -/

/-- Evaluating `s || ''` in JS is the identity on strings. -/
theorem emptyFallback_eq (s : String) : (if s = "" then "" else s) = s := by
  by_cases h : s = "" <;> simp [h]

/-! ## C10 — disconnected local change is a complete no-op -/

/-- C10: if the session is not connected or the content mapping handle
is unavailable, a locally authored editor change is a no-op on the
Local → Shared path: the state (shared mapping keys, `lastEditorUpdate`,
`syncStatus`, everything else) is unchanged and no write is issued. -/
theorem c10_disconnected_change_noop (now : Int) (content : Option ContentMsg)
    (s : Sys) (h : s.connected = false ∨ s.blockContent = none) :
    handleEditorContentChange now content s = (s, []) := by
  rcases h with h | h
  · unfold handleEditorContentChange
    cases hbc : s.blockContent with
    | none => rfl
    | some bc => simp [h]
  · unfold handleEditorContentChange
    simp [h]

/-- Witness for C10 at a concrete disconnected session. -/
theorem c10_disconnected_change_noop_witness :
    handleEditorContentChange 7 (some ⟨JVal.str "W", "u1", 7⟩)
      { demoSys with connected := false } =
      ({ demoSys with connected := false }, []) :=
  c10_disconnected_change_noop 7 (some ⟨JVal.str "W", "u1", 7⟩)
    { demoSys with connected := false } (Or.inl rfl)

/-! ## C4 — empty and non-propagating editor changes never reach the
shared mapping -/

/-- C4: an editor change notification with a falsy payload is rejected,
and one whose metadata marks a selection-only event or an
undo-suppressed event is dropped; in both cases the handler returns
normally with the state unchanged and no write to the shared mapping,
so such changes never appear in the shared content record. -/
theorem c4_nonpropagating_never_written (now : Int) (s : Sys) :
    (∀ ev : Option ChangeEvent,
      handleMessage now (Msg.updateProject Payload.empty ev) s = Except.ok (s, []))
    ∧ (∀ (p : Payload) (e : ChangeEvent),
        e.element = "selected" ∨ e.recordUndo = false →
        handleMessage now (Msg.updateProject p (some e)) s = Except.ok (s, [])) := by
  constructor
  · intro ev
    simp [handleMessage, Payload.truthy]
  · intro p e h
    unfold handleMessage
    rcases h with h | h
    · cases htr : (s.editor.editorReady && p.truthy) with
      | false => simp [htr]
      | true => simp [htr, h]
    · cases htr : (s.editor.editorReady && p.truthy) with
      | false => simp [htr]
      | true => simp [htr, h]

/-- Witness for C4: a selection-only event carrying a genuine payload is
dropped without touching the shared mapping. -/
theorem c4_nonpropagating_never_written_witness :
    handleMessage 3 (Msg.updateProject (Payload.wellFormed (JVal.str "W"))
      (some ⟨"selected", true⟩)) demoSys = Except.ok (demoSys, []) :=
  (c4_nonpropagating_never_written 3 demoSys).2
    (Payload.wellFormed (JVal.str "W")) ⟨"selected", true⟩ (Or.inl rfl)

/-! ## C5 — malformed payloads: the boundary does not actually catch -/

/-- C5 counterexample: a `blocks.updateProject` message whose payload
fails to deserialize makes `handleMessage` raise an uncaught exception
(the `JSON.parse` call sits outside any `try`), refuting the claim that
malformed content is caught at the boundary and never raises. -/
theorem c5_counterexample_uncaught_parse :
    handleMessage 0 (Msg.updateProject Payload.malformed
      (some ⟨"workspace", true⟩)) demoSys = Except.error JsError.parseFailure := by
  rfl

/-- C5 amended: a non-deserializable change payload on the
Local → Shared path raises an uncaught exception from `handleMessage`
rather than being caught; the malformed payload is nevertheless never
applied to the editor and never written to the shared mapping, because
the exception aborts the handler before any push or write (the event
step leaves the session state unchanged). -/
theorem c5_amended_malformed_throws_no_write (now : Int) (e : ChangeEvent) (s : Sys)
    (hready : s.editor.editorReady = true)
    (hel : e.element ≠ "selected") (hundo : e.recordUndo = true) :
    handleMessage now (Msg.updateProject Payload.malformed (some e)) s =
      Except.error JsError.parseFailure
    ∧ sysStep s (SysEv.editorMsg now (Msg.updateProject Payload.malformed (some e))) = s := by
  have hmain : handleMessage now (Msg.updateProject Payload.malformed (some e)) s =
      Except.error JsError.parseFailure := by
    simp [handleMessage, hready, Payload.truthy, hundo, hel, Payload.parse]
  exact ⟨hmain, by simp [sysStep, hmain]⟩

/-- Witness for the amended C5. -/
theorem c5_amended_malformed_throws_no_write_witness :
    handleMessage 9 (Msg.updateProject Payload.malformed (some ⟨"workspace", true⟩))
      demoSys = Except.error JsError.parseFailure
    ∧ sysStep demoSys (SysEv.editorMsg 9 (Msg.updateProject Payload.malformed
        (some ⟨"workspace", true⟩))) = demoSys :=
  c5_amended_malformed_throws_no_write 9 ⟨"workspace", true⟩ demoSys rfl
    (by decide) rfl

/-! ## C9 — presence removal precedes connection release in teardown -/

/-- C9: during `cleanup`, when connected with the presence map handle
and the provider present, the teardown trace is exactly presence
removal followed by disconnect; and in every state whatsoever the trace
is a subsequence of `[removePresence, disconnect]` — the connection is
never released before the removal attempt. -/
theorem c9_presence_removed_before_release (s : Sys)
    (hc : s.connected = true) (hm : s.mousePositions.isSome = true)
    (hp : s.provider = true) :
    (cleanup s).2 = [CleanupAct.removePresence, CleanupAct.disconnect]
    ∧ ∀ t : Sys, ((cleanup t).2).Sublist
        [CleanupAct.removePresence, CleanupAct.disconnect] := by
  constructor
  · obtain ⟨m, hm'⟩ := Option.isSome_iff_exists.mp hm
    simp [cleanup, hm', hc, hp]
  · intro t
    unfold cleanup
    cases ht : t.mousePositions with
    | none =>
      simp only [ht]
      by_cases hp' : t.provider <;> simp [hp']
    | some m =>
      simp only [ht]
      by_cases hc' : t.connected
      · by_cases hp' : t.provider <;> simp [hc', hp']
      · by_cases hp' : t.provider <;> simp [hc', hp']

/-- Witness for C9 at the concrete demonstration session. -/
theorem c9_presence_removed_before_release_witness :
    (cleanup demoSys).2 = [CleanupAct.removePresence, CleanupAct.disconnect] :=
  (c9_presence_removed_before_release demoSys rfl rfl rfl).1

/-! ## C6 — presence tracks the latest pointer position -/

/-- Overwriting a key makes it the retrieved value. -/
theorem pmGet_set_self (m : PresenceMap) (k : String) (v : PresenceEntry) :
    pmGet (pmSet m k v) k = some v := by
  simp [pmGet, pmSet, List.find?]

/-- After deleting a key it is absent. -/
theorem pmGet_delete_self (m : PresenceMap) (k : String) :
    pmGet (pmDelete m k) k = none := by
  have hall : ∀ kv ∈ m.filter (fun kv => kv.1 != k),
      ¬((fun (kv : String × PresenceEntry) => kv.1 == k) kv = true) := by
    intro kv hkv
    have h2 := (List.mem_filter.mp hkv).2
    simp only [bne_iff_ne, ne_eq] at h2
    simp [h2]
  unfold pmGet pmDelete
  rw [List.find?_eq_none.mpr hall]

/-- A connected pointer-move sequence: the session stays connected, the
handles and identity are untouched, and the local presence entry equals
the last reported position with the session color. -/
theorem applyMoves_spec (moves : List (Int × Int)) (s : Sys)
    (hc : s.connected = true) (hm : s.mousePositions.isSome = true) :
    (applyMoves moves s).connected = true
    ∧ (applyMoves moves s).mousePositions.isSome = true
    ∧ (applyMoves moves s).userId = s.userId
    ∧ (applyMoves moves s).userColor = s.userColor
    ∧ ∀ last, moves.getLast? = some last →
        sysPmGet (applyMoves moves s) s.userId =
          some ⟨last.1, last.2, s.userColor⟩ := by
  induction moves generalizing s with
  | nil =>
    exact ⟨hc, hm, rfl, rfl, by intro last h; simp at h⟩
  | cons p rest ih =>
    obtain ⟨m, hm'⟩ := Option.isSome_iff_exists.mp hm
    have hstep : handleMouseMove p.1 p.2 s =
        { s with mousePositions := some (pmSet m s.userId ⟨p.1, p.2, s.userColor⟩) } := by
      simp [handleMouseMove, hm', hc]
    have happ : applyMoves (p :: rest) s =
        applyMoves rest (handleMouseMove p.1 p.2 s) := rfl
    cases rest with
    | nil =>
      refine ⟨?_, ?_, ?_, ?_, ?_⟩ <;>
        simp [happ, applyMoves, hstep, hc, sysPmGet, pmGet_set_self]
    | cons q t =>
      have huid2 : (handleMouseMove p.1 p.2 s).userId = s.userId := by rw [hstep]
      have hcol2 : (handleMouseMove p.1 p.2 s).userColor = s.userColor := by rw [hstep]
      have hrec := ih (handleMouseMove p.1 p.2 s)
        (by rw [hstep]; exact hc) (by rw [hstep]; rfl)
      rw [happ]
      refine ⟨hrec.1, hrec.2.1, ?_, ?_, ?_⟩
      · rw [hrec.2.2.1, huid2]
      · rw [hrec.2.2.2.1, hcol2]
      · intro last hlast
        rw [List.getLast?_cons_cons] at hlast
        have h5 := hrec.2.2.2.2 last hlast
        rw [huid2, hcol2] at h5
        exact h5

/-- C6: for every nonempty sequence of local pointer moves while
connected, the shared mapping's entry under the local participant id
equals the most recently reported position together with the session
color, and after `handleMouseLeave` the entry is absent. -/
theorem c6_presence_tracks_pointer (moves : List (Int × Int)) (s : Sys)
    (last : Int × Int) (hlast : moves.getLast? = some last)
    (hc : s.connected = true) (hm : s.mousePositions.isSome = true) :
    sysPmGet (applyMoves moves s) s.userId = some ⟨last.1, last.2, s.userColor⟩
    ∧ sysPmGet (handleMouseLeave (applyMoves moves s)) s.userId = none := by
  obtain ⟨hc', hm', huid, hcol, hlastf⟩ := applyMoves_spec moves s hc hm
  refine ⟨hlastf last hlast, ?_⟩
  obtain ⟨m, hmm⟩ := Option.isSome_iff_exists.mp hm'
  simp [handleMouseLeave, hmm, hc', sysPmGet, huid, pmGet_delete_self]

/-- Witness for C6: two moves leave the second position published, and
leaving removes the entry. -/
theorem c6_presence_tracks_pointer_witness :
    sysPmGet (applyMoves [(1, 2), (10, 20)] demoSys) demoSys.userId =
      some ⟨10, 20, demoSys.userColor⟩
    ∧ sysPmGet (handleMouseLeave (applyMoves [(1, 2), (10, 20)] demoSys))
        demoSys.userId = none :=
  c6_presence_tracks_pointer [(1, 2), (10, 20)] demoSys (10, 20) rfl rfl rfl

/-! ## Single-step characterizations of a remote content update -/

/-- A remote update whose record's `origin` equals the local user id:
the observer still fires and rebuilds `editorContent`, but the Editor
`$effect` returns before scheduling anything — the timer and the whole
Editor state are untouched. -/
theorem yjsContentUpdate_own (c : ContentMsg) (s : Sys) (bc : BlockContent)
    (hbc : s.blockContent = some bc) (hdata : c.data.truthy = true)
    (hor : c.origin = s.editor.localUserId) :
    yjsContentUpdate c s =
      { s with
          blockContent := some ⟨some c.data, some c.timestamp, some c.origin⟩,
          syncStatus := SyncStatus.receiving,
          editorContent := some ⟨c.data, c.origin, c.timestamp⟩,
          lastEditorUpdate := c.timestamp } := by
  simp [yjsContentUpdate, hbc, observeOnce, hdata, effectRun, hor]

/-- A remote update whose record's `origin` differs from the local user
id: the observer rebuilds `editorContent` and the `$effect` reschedules
the deferred apply. -/
theorem yjsContentUpdate_remote (c : ContentMsg) (s : Sys) (bc : BlockContent)
    (hbc : s.blockContent = some bc) (hdata : c.data.truthy = true)
    (hor : c.origin ≠ s.editor.localUserId) :
    yjsContentUpdate c s =
      { s with
          blockContent := some ⟨some c.data, some c.timestamp, some c.origin⟩,
          syncStatus := SyncStatus.receiving,
          editorContent := some ⟨c.data, c.origin, c.timestamp⟩,
          lastEditorUpdate := c.timestamp,
          timer := debounceOp s.timer } := by
  simp [yjsContentUpdate, hbc, observeOnce, hdata, effectRun, hor]

/-! ## C1 — the apply path does skip by origin -/

/-- C1 counterexample: an observed record whose payload differs from
`lastRoomState` but whose `origin` equals the local participant id
schedules no apply at all — the pending-timer set stays empty and
nothing is ever pushed, refuting the claim that skipping happens only
by value equality and never by origin. -/
theorem c1_counterexample_origin_filter :
    (⟨JVal.str "X", "u1", 5⟩ : ContentMsg).data ≠ demoSys.editor.lastRoomState
    ∧ (⟨JVal.str "X", "u1", 5⟩ : ContentMsg).origin = demoSys.editor.localUserId
    ∧ (yjsContentUpdate ⟨JVal.str "X", "u1", 5⟩ demoSys).timer.pending = []
    ∧ (yjsContentUpdate ⟨JVal.str "X", "u1", 5⟩ demoSys).timer.slot = none
    ∧ (yjsContentUpdate ⟨JVal.str "X", "u1", 5⟩ demoSys).editor.pushes = [] := by
  exact ⟨by decide, rfl, rfl, rfl, rfl⟩

/-- C1 amended: on the Shared → Local path an observed update is
filtered by origin before any value comparison: when the record's
`origin` equals the local participant id the effect returns without
scheduling (timer and Editor state untouched, regardless of payload);
only when the origin differs is a deferred apply scheduled — the value
equality check against `lastRoomState` then decides at fire time
whether the push happens. -/
theorem c1_amended_origin_then_value (c : ContentMsg) (s : Sys) (bc : BlockContent)
    (hbc : s.blockContent = some bc) (hdata : c.data.truthy = true) :
    (c.origin = s.editor.localUserId →
      (yjsContentUpdate c s).timer = s.timer
      ∧ (yjsContentUpdate c s).editor = s.editor)
    ∧ (c.origin ≠ s.editor.localUserId →
      (yjsContentUpdate c s).timer.slot = some s.timer.nextId
      ∧ s.timer.nextId ∈ (yjsContentUpdate c s).timer.pending
      ∧ (yjsContentUpdate c s).editor = s.editor) := by
  constructor
  · intro hor
    rw [yjsContentUpdate_own c s bc hbc hdata hor]
    exact ⟨rfl, rfl⟩
  · intro hor
    rw [yjsContentUpdate_remote c s bc hbc hdata hor]
    refine ⟨rfl, ?_, rfl⟩
    simp [debounceOp]

/-- Witness for the amended C1: a genuinely remote record gets a
deferred apply scheduled. -/
theorem c1_amended_origin_then_value_witness :
    (yjsContentUpdate ⟨JVal.str "X", "remote", 5⟩ demoSys).timer.slot = some 0 :=
  ((c1_amended_origin_then_value ⟨JVal.str "X", "remote", 5⟩ demoSys
      ⟨none, none, none⟩ rfl rfl).2 (by decide)).1

/-! ## C3 — qualifying local changes are published immediately -/

/-- C3: a qualifying locally authored change (ready editor, truthy
payload, not selection-only, recorded for undo, connected session with
the content handle) is written to the shared mapping in the very same
handler invocation — no debounce is involved — with all three
ContentRecord fields issued together: the payload, the current time as
`timestamp`, and the local participant id as `origin`.  The observer
then rebuilds `editorContent` from the own write, and the deferred
Editor effect skips it (origin equals the local id), leaving the timer
untouched. -/
theorem c3_local_change_published_immediately (now : Int) (v : JVal)
    (e : ChangeEvent) (s : Sys) (bc : BlockContent)
    (hready : s.editor.editorReady = true)
    (hconn : s.connected = true)
    (hbc : s.blockContent = some bc)
    (hv : v.truthy = true)
    (hel : e.element ≠ "selected")
    (hundo : e.recordUndo = true) :
    handleMessage now (Msg.updateProject (Payload.wellFormed v) (some e)) s =
      Except.ok
        ({ s with
            blockContent := some ⟨some v, some now, some s.editor.localUserId⟩,
            syncStatus := SyncStatus.receiving,
            editorContent := some ⟨v, s.editor.localUserId, now⟩,
            lastEditorUpdate := now },
         [WriteAct.setContent v, WriteAct.setTimestamp now,
          WriteAct.setOrigin s.editor.localUserId]) := by
  simp only [handleMessage, hready, Payload.truthy, Bool.true_and, if_true, hundo,
    Bool.not_true, Bool.or_false, Payload.parse]
  rw [if_neg (by simp [hel])]
  simp [handleEditorContentChange, hbc, hconn, hv, observeOnce, effectRun,
    emptyFallback_eq]

/-- Witness for C3 at the concrete demonstration session. -/
theorem c3_local_change_published_immediately_witness :
    handleMessage 7 (Msg.updateProject (Payload.wellFormed (JVal.structured "ws"))
      (some ⟨"workspace", true⟩)) demoSys =
      Except.ok
        ({ demoSys with
            blockContent := some ⟨some (JVal.structured "ws"), some 7, some "u1"⟩,
            syncStatus := SyncStatus.receiving,
            editorContent := some ⟨JVal.structured "ws", "u1", 7⟩,
            lastEditorUpdate := 7 },
         [WriteAct.setContent (JVal.structured "ws"), WriteAct.setTimestamp 7,
          WriteAct.setOrigin "u1"]) :=
  c3_local_change_published_immediately 7 (JVal.structured "ws")
    ⟨"workspace", true⟩ demoSys ⟨none, none, none⟩ rfl rfl rfl rfl (by decide) rfl

/-! ## C8 — initial sync synthesizes the event but does not bypass the
debounce -/

/-- C8 counterexample: on the non-connected → connected transition with
existing shared content, nothing is pushed to the editor in the
transition itself; instead a deferred apply is scheduled through the
ordinary 10 ms debounce — the claim that the content is delivered as an
immediate apply bypassing the debounce delay fails. -/
theorem c8_counterexample_connect_apply_is_debounced :
    c8State.connected = false
    ∧ c8State.blockContent.map BlockContent.content = some (some (JVal.str "X"))
    ∧ (statusHandler 100 "connected" c8State).connected = true
    ∧ (statusHandler 100 "connected" c8State).editor.pushes = []
    ∧ (statusHandler 100 "connected" c8State).timer.slot = some 0
    ∧ (statusHandler 100 "connected" c8State).timer.pending = [0] := by
  exact ⟨rfl, rfl, rfl, rfl, rfl, rfl⟩

/-- C8 amended: on every non-connected → connected transition, if the
shared record already holds truthy content, the status handler reads it
synchronously and synthesizes the Shared → Local event (`editorContent`)
from it without waiting for a subsequent change notification; delivery
to the editor is not immediate, however — the synthesized event goes
through the normal debounced apply path (here with a remote origin: a
deferred apply is scheduled and nothing is pushed yet). -/
theorem c8_amended_connect_synthesizes_event (now : Int) (st : Sys)
    (bc : BlockContent) (v : JVal)
    (hconn : st.connected = false)
    (hbc : st.blockContent = some bc)
    (hv : bc.content = some v) (hvt : v.truthy = true)
    (hor : bc.origin.getD "" ≠ st.editor.localUserId) :
    (statusHandler now "connected" st).connected = true
    ∧ (statusHandler now "connected" st).editorContent =
        some ⟨v, bc.origin.getD "",
          match bc.timestamp with
          | some t => if t = 0 then now else t
          | none => now⟩
    ∧ (statusHandler now "connected" st).editor.pushes = st.editor.pushes
    ∧ (statusHandler now "connected" st).timer.slot = some st.timer.nextId := by
  simp [statusHandler, hconn, hbc, hv, hvt, effectRun, hor, debounceOp]

/-- Witness for the amended C8. -/
theorem c8_amended_connect_synthesizes_event_witness :
    (statusHandler 100 "connected" c8State).connected = true
    ∧ (statusHandler 100 "connected" c8State).editorContent =
        some ⟨JVal.str "X", "remote", 5⟩
    ∧ (statusHandler 100 "connected" c8State).editor.pushes = []
    ∧ (statusHandler 100 "connected" c8State).timer.slot = some 0 :=
  c8_amended_connect_synthesizes_event 100 c8State
    ⟨some (JVal.str "X"), some 5, some "remote"⟩ (JVal.str "X")
    rfl rfl rfl rfl (by decide)

/-! ## C2 — a burst of remote changes collapses to one apply -/

/-- Scheduling a burst of remote updates (truthy data, remote origins)
never pushes anything and never touches `lastRoomState` or the Editor
identity; afterwards `editorContent` holds the last update of the burst
and the last-scheduled timer is slotted and live. -/
theorem burstFold_spec (cs : List ContentMsg) (s : Sys)
    (hremote : ∀ c ∈ cs, c.origin ≠ s.editor.localUserId)
    (hdata : ∀ c ∈ cs, c.data.truthy = true)
    (hbc : s.blockContent.isSome = true) :
    (burstFold cs s).editor.pushes = s.editor.pushes
    ∧ (burstFold cs s).editor.lastRoomState = s.editor.lastRoomState
    ∧ (burstFold cs s).editor.editorReady = s.editor.editorReady
    ∧ (burstFold cs s).editor.iframeAvailable = s.editor.iframeAvailable
    ∧ (∀ last, cs.getLast? = some last →
        (burstFold cs s).editorContent = some ⟨last.data, last.origin, last.timestamp⟩
        ∧ ∃ id, (burstFold cs s).timer.slot = some id
            ∧ id ∈ (burstFold cs s).timer.pending) := by
  induction cs generalizing s with
  | nil =>
    exact ⟨rfl, rfl, rfl, rfl, by intro last h; simp at h⟩
  | cons c rest ih =>
    obtain ⟨bc, hbc'⟩ := Option.isSome_iff_exists.mp hbc
    have hc1 : c.origin ≠ s.editor.localUserId := hremote c (by simp)
    have hc2 : c.data.truthy = true := hdata c (by simp)
    have hstep := yjsContentUpdate_remote c s bc hbc' hc2 hc1
    have happ : burstFold (c :: rest) s = burstFold rest (yjsContentUpdate c s) := rfl
    have hed : (yjsContentUpdate c s).editor = s.editor := by rw [hstep]
    have hbc2 : (yjsContentUpdate c s).blockContent.isSome = true := by rw [hstep]; rfl
    have htm : (yjsContentUpdate c s).timer = debounceOp s.timer := by rw [hstep]
    have hec : (yjsContentUpdate c s).editorContent =
        some ⟨c.data, c.origin, c.timestamp⟩ := by rw [hstep]
    have ih' := ih (yjsContentUpdate c s)
      (by intro d hd; rw [hed]; exact hremote d (by simp [hd]))
      (by intro d hd; exact hdata d (by simp [hd])) hbc2
    rw [happ]
    refine ⟨?_, ?_, ?_, ?_, ?_⟩
    · rw [ih'.1, hed]
    · rw [ih'.2.1, hed]
    · rw [ih'.2.2.1, hed]
    · rw [ih'.2.2.2.1, hed]
    · intro last hlast
      cases rest with
      | nil =>
        have hlc : c = last := by simpa using hlast
        subst hlc
        have hnil : burstFold [] (yjsContentUpdate c s) =
            yjsContentUpdate c s := rfl
        rw [hnil, hec, htm]
        refine ⟨rfl, s.timer.nextId, rfl, ?_⟩
        simp [debounceOp]
      | cons q t =>
        rw [List.getLast?_cons_cons] at hlast
        exact ih'.2.2.2.2 last hlast

/-- C2: for every burst of one or more remote content changes arriving
within the debounce window, exactly one apply is delivered to the
editor, carrying the value current when the timer fires (the last value
of the burst); and when that final value equals `lastRoomState` by
value, zero applies occur. -/
theorem c2_burst_collapses_to_one_apply (cs : List ContentMsg) (s : Sys)
    (last : ContentMsg) (hlast : cs.getLast? = some last)
    (hremote : ∀ c ∈ cs, c.origin ≠ s.editor.localUserId)
    (hdata : ∀ c ∈ cs, c.data.truthy = true)
    (hbc : s.blockContent.isSome = true)
    (hready : s.editor.editorReady = true)
    (hifr : s.editor.iframeAvailable = true) :
    (runBurst cs s).editor.pushes =
      if last.data = s.editor.lastRoomState then s.editor.pushes
      else s.editor.pushes ++ [last.data] := by
  obtain ⟨hp, hlrs, hrdy, hif, hfin⟩ := burstFold_spec cs s hremote hdata hbc
  obtain ⟨hec, id, hslot, hmem⟩ := hfin last hlast
  have hrb : runBurst cs s = fireTimer id (burstFold cs s) := by
    unfold runBurst fireSlot
    rw [hslot]
  rw [hrb]
  unfold fireTimer
  rw [if_pos hmem]
  by_cases heq : last.data = s.editor.lastRoomState
  · rw [if_pos heq]
    simp [roomStateCallback, hec, hlrs, heq, hp]
  · rw [if_neg heq]
    simp [roomStateCallback, hec, hlrs, heq, loadCodeSys, hrdy, hif, hp, hready, hifr]

/-- Witness for C2: a burst of two remote changes pushes exactly the
last value once. -/
theorem c2_burst_collapses_to_one_apply_witness :
    (runBurst [⟨JVal.str "A", "r9", 1⟩, ⟨JVal.str "B", "r9", 2⟩] demoSys).editor.pushes =
      if JVal.str "B" = demoSys.editor.lastRoomState then demoSys.editor.pushes
      else demoSys.editor.pushes ++ [JVal.str "B"] :=
  c2_burst_collapses_to_one_apply
    [⟨JVal.str "A", "r9", 1⟩, ⟨JVal.str "B", "r9", 2⟩] demoSys
    ⟨JVal.str "B", "r9", 2⟩ rfl (by decide) (by decide) rfl rfl rfl

/-! ## C7 — at most one deferred-apply timer is ever pending -/

/-- Function `debounce` restores the invariant no matter what it starts from,
provided the slot and the live set agree: it clears the slotted timer
and schedules exactly one fresh one. -/
theorem timerWf_debounceOp (t : TimerSys) (h : timerWf t) :
    timerWf (debounceOp t) := by
  unfold timerWf at h ⊢
  unfold debounceOp
  cases hs : t.slot with
  | none =>
    rw [hs] at h
    simp only [Option.toList] at h
    simp [h, Option.toList]
  | some oldId =>
    rw [hs] at h
    simp only [Option.toList] at h
    simp [h, Option.toList, List.erase_cons_head]

/-- Function `loadCode` never touches the timer. -/
theorem loadCodeSys_timer (v : JVal) (s : Sys) :
    (loadCodeSys v s).timer = s.timer := by
  unfold loadCodeSys
  split <;> rfl

/-- The content observer never touches the timer. -/
theorem observeOnce_timer (s : Sys) : (observeOnce s).1.timer = s.timer := by
  unfold observeOnce
  cases hbc : s.blockContent with
  | none => rfl
  | some bc =>
    cases hv : bc.content with
    | none => simp [hbc, hv]
    | some v =>
      by_cases ht : v.truthy = true
      · simp [hbc, hv, ht]
      · simp [hbc, hv, ht]

/-- The deferred-apply callback never touches the timer. -/
theorem roomStateCallback_timer (s : Sys) :
    (roomStateCallback s).timer = s.timer := by
  unfold roomStateCallback
  cases hec : s.editorContent with
  | none => rfl
  | some c =>
    by_cases h : c.data = s.editor.lastRoomState
    · simp [hec, h]
    · simp [hec, h, loadCodeSys_timer]

/-- The room-state effect either leaves the timer alone or applies one
`debounce` call. -/
theorem effectRun_timer (s : Sys) :
    (effectRun s).timer = s.timer ∨ (effectRun s).timer = debounceOp s.timer := by
  unfold effectRun
  cases hec : s.editorContent with
  | none => exact Or.inl rfl
  | some c =>
    by_cases h : c.origin = s.editor.localUserId
    · left; simp [hec, h]
    · right; simp [hec, h]

/-- Transfer form of `effectRun_timer` along a timer equality. -/
theorem effectRun_timer_of (s x : Sys) (hx : x.timer = s.timer) :
    (effectRun x).timer = s.timer ∨ (effectRun x).timer = debounceOp s.timer := by
  rcases effectRun_timer x with h | h
  · left; rw [h, hx]
  · right; rw [h, hx]

/-- A remote content update either leaves the timer alone or applies
one `debounce` call. -/
theorem yjsContentUpdate_timer (c : ContentMsg) (s : Sys) :
    (yjsContentUpdate c s).timer = s.timer
    ∨ (yjsContentUpdate c s).timer = debounceOp s.timer := by
  unfold yjsContentUpdate
  cases hbc : s.blockContent with
  | none => exact Or.inl rfl
  | some bc =>
    simp only [hbc]
    cases hob : (observeOnce { s with
        blockContent := some ⟨some c.data, some c.timestamp, some c.origin⟩ }).2 with
    | false =>
      simp only [hob, Bool.false_eq_true, if_false]
      left
      rw [observeOnce_timer]
    | true =>
      simp only [hob, if_true]
      refine effectRun_timer_of s _ ?_
      rw [observeOnce_timer]

/-- The qualifying branch of `handleEditorContentChange` in closed
form: the three writes land, the observer chain leaves `editorContent`
holding the normalized own record, and the deferred effect runs once on
the result. -/
theorem handleECC_qualifying (now : Int) (c : ContentMsg) (s : Sys)
    (bc0 : BlockContent)
    (hbc : s.blockContent = some bc0) (hcn : s.connected = true)
    (hv : c.data.truthy = true) :
    handleEditorContentChange now (some c) s =
      (effectRun { s with
          blockContent := some ⟨some c.data,
            some (if c.timestamp = 0 then now else c.timestamp), some c.origin⟩,
          syncStatus := SyncStatus.receiving,
          editorContent := some ⟨c.data, c.origin,
            if c.timestamp = 0 then now else c.timestamp⟩,
          lastEditorUpdate := if c.timestamp = 0 then now else c.timestamp },
       [WriteAct.setContent c.data,
        WriteAct.setTimestamp (if c.timestamp = 0 then now else c.timestamp),
        WriteAct.setOrigin c.origin]) := by
  simp [handleEditorContentChange, hbc, hcn, hv, observeOnce, emptyFallback_eq]

/-- Function `handleEditorContentChange` either leaves the timer alone or
applies one `debounce` call. -/
theorem handleEditorContentChange_timer (now : Int) (content : Option ContentMsg)
    (s : Sys) :
    (handleEditorContentChange now content s).1.timer = s.timer
    ∨ (handleEditorContentChange now content s).1.timer = debounceOp s.timer := by
  cases hbc : s.blockContent with
  | none => left; unfold handleEditorContentChange; simp [hbc]
  | some bc0 =>
    by_cases hcn : s.connected = true
    · cases content with
      | none => left; unfold handleEditorContentChange; simp [hbc, hcn]
      | some c =>
        by_cases hv : c.data.truthy = true
        · rw [handleECC_qualifying now c s bc0 hbc hcn hv]
          exact effectRun_timer_of s _ rfl
        · left; unfold handleEditorContentChange; simp [hbc, hcn, hv]
    · left; unfold handleEditorContentChange; simp [hbc, hcn]

/-- A successfully handled window message either leaves the timer alone
or applies one `debounce` call. -/
theorem handleMessage_timer (now : Int) (m : Msg) (s : Sys) :
    ∀ r, handleMessage now m s = Except.ok r →
      (r.1.timer = s.timer ∨ r.1.timer = debounceOp s.timer) := by
  intro r h
  cases m with
  | other ty =>
    simp only [handleMessage] at h
    injection h with h'
    left
    rw [← h']
  | ready =>
    left
    simp only [handleMessage] at h
    split at h
    · injection h with h'
      rw [← h', loadCodeSys_timer]
    · injection h with h'
      rw [← h']
  | updateProject p ev =>
    cases ev with
    | none =>
      simp only [handleMessage] at h
      split at h
      · simp at h
      · injection h with h'
        left
        rw [← h']
    | some e =>
      simp only [handleMessage] at h
      split at h
      · split at h
        · injection h with h'
          left
          rw [← h']
        · cases hp : p.parse with
          | none =>
            simp only [hp] at h
            simp at h
          | some v =>
            simp only [hp] at h
            injection h with h'
            rw [← h']
            exact handleEditorContentChange_timer now
              (some ⟨v, s.editor.localUserId, now⟩) s
      · injection h with h'
        left
        rw [← h']

/-- The provider status handler either leaves the timer alone or
applies one `debounce` call. -/
theorem statusHandler_timer (now : Int) (st : String) (s : Sys) :
    (statusHandler now st s).timer = s.timer
    ∨ (statusHandler now st s).timer = debounceOp s.timer := by
  unfold statusHandler
  by_cases h1 : (st == "connected") = true
  · by_cases h2 : s.connected = true
    · left; simp [h1, h2]
    · cases hbc : s.blockContent with
      | none => left; simp [h1, h2, hbc]
      | some bc =>
        cases hv : bc.content with
        | none => left; simp [h1, h2, hbc, hv]
        | some v =>
          by_cases ht : v.truthy = true
          · simp only [h1, h2, hbc, hv, ht, Bool.not_false, Bool.and_true,
              Bool.not_eq_true, Bool.true_and, if_true]
            refine effectRun_timer_of s _ ?_
            simp [Bool.not_eq_true] at h2
            simp [h2]
          · left; simp [h1, h2, hbc, hv, ht]
  · left; simp [h1]

/-- Pointer moves never touch the timer. -/
theorem handleMouseMove_timer (x y : Int) (s : Sys) :
    (handleMouseMove x y s).timer = s.timer := by
  unfold handleMouseMove
  cases hm : s.mousePositions with
  | none => rfl
  | some m =>
    by_cases hc : s.connected = true
    · simp [hm, hc]
    · simp [hm, hc]

/-- Pointer leaves never touch the timer. -/
theorem handleMouseLeave_timer (s : Sys) :
    (handleMouseLeave s).timer = s.timer := by
  unfold handleMouseLeave
  cases hm : s.mousePositions with
  | none => rfl
  | some m =>
    by_cases hc : s.connected = true
    · simp [hm, hc]
    · simp [hm, hc]

/-- Firing a timer preserves the invariant: the fired timer leaves the
live set and the callback body blanks the slot. -/
theorem timerWf_fireTimer (id : Nat) (s : Sys) (h : timerWf s.timer) :
    timerWf (fireTimer id s).timer := by
  unfold fireTimer
  by_cases hmem : id ∈ s.timer.pending
  · rw [if_pos hmem]
    unfold timerWf at h ⊢
    simp only [roomStateCallback_timer]
    rw [h] at hmem
    cases hs : s.timer.slot with
    | none =>
      rw [hs] at hmem
      simp [Option.toList] at hmem
    | some j =>
      rw [hs] at hmem
      simp only [Option.toList, List.mem_singleton] at hmem
      subst hmem
      simp [h, hs, Option.toList, List.erase_cons_head]
  · rw [if_neg hmem]
    exact h

/-- Every event step preserves the timer invariant. -/
theorem timerWf_sysStep (s : Sys) (e : SysEv) (h : timerWf s.timer) :
    timerWf (sysStep s e).timer := by
  cases e with
  | yjsUpdate c =>
    unfold sysStep
    rcases yjsContentUpdate_timer c s with h2 | h2
    · rw [h2]; exact h
    · rw [h2]; exact timerWf_debounceOp _ h
  | editorMsg now m =>
    show timerWf (match handleMessage now m s with
      | Except.ok r => r.1
      | Except.error _ => s).timer
    cases hm : handleMessage now m s with
    | error e => exact h
    | ok r =>
      show timerWf r.1.timer
      rcases handleMessage_timer now m s r hm with h2 | h2
      · rw [h2]; exact h
      · rw [h2]; exact timerWf_debounceOp _ h
  | statusEv now st =>
    unfold sysStep
    rcases statusHandler_timer now st s with h2 | h2
    · rw [h2]; exact h
    · rw [h2]; exact timerWf_debounceOp _ h
  | fire id => exact timerWf_fireTimer id s h
  | mouseMove x y =>
    unfold sysStep
    rw [handleMouseMove_timer]
    exact h
  | mouseLeave =>
    unfold sysStep
    rw [handleMouseLeave_timer]
    exact h

/-- The timer invariant holds along every event sequence. -/
theorem timerWf_runEvents (evs : List SysEv) (s : Sys) (h : timerWf s.timer) :
    timerWf (evs.foldl sysStep s).timer := by
  induction evs generalizing s with
  | nil => exact h
  | cons e rest ih => exact ih (sysStep s e) (timerWf_sysStep s e h)

/-- C7: starting from a fresh session, after any sequence of events
(remote updates, editor messages, status transitions, timer fires,
pointer events) at most one deferred-apply timer is pending — the
debounce scheduler always cancels the recorded timer before creating a
new one, so two timers never coexist. -/
theorem c7_at_most_one_pending_timer (ruid rcolor euid : String)
    (evs : List SysEv) :
    ((evs.foldl sysStep (initSys ruid rcolor euid)).timer.pending).length ≤ 1 := by
  have hwf := timerWf_runEvents evs (initSys ruid rcolor euid) rfl
  rw [hwf]
  cases (evs.foldl sysStep (initSys ruid rcolor euid)).timer.slot with
  | none => simp [Option.toList]
  | some id => simp [Option.toList]
